import Mathlib

/-!
# Verification of the sharexhandler upload/delivery pipelines

Shallow embedding of `router.go` (the `ShareXHandler` upload and GET
handlers) and `storages/mongostorage.go` (the MongoDB-backed storage:
`Save` and `LoadStorageEntry`).  Strings from the Go source are modelled
as `List Char` (the identifiers and filenames involved are ASCII, so the
byte indices returned by `strings.LastIndex` coincide with character
indices).  Byte blobs are modelled as `List Nat`.

External effects (the multipart parser, the MongoDB round trips, the
filesystem writer/reader) are modelled as explicit parameters recording
whether each call succeeds, exactly mirroring the error branches of the
Go code.  The `net/http` response-writer discipline matters for the
results below and is modelled faithfully: the FIRST `WriteHeader` (or
`http.Error`) fixes the status code, later calls are ignored.
-/

namespace ShareXHandler

/-- Strings of the Go source, as character lists (ASCII in all inputs of
interest, so byte indexing = character indexing). -/
abbrev Str := List Char

/-- `strings.LastIndex(s, ".")`: index of the last `'.'` of `s`, `none`
when `s` contains no dot (Go returns `-1` there; we use `Option`). -/
def lastDotIndex : Str → Option Nat
  | [] => none
  | c :: rest =>
    match lastDotIndex rest with
    | some i => some (i + 1)
    | none => if c = '.' then some 0 else none

/-- `strings.EqualFold` on the ASCII content types involved: equality of
the lowercase images (simple case folding restricted to ASCII). -/
def eqFold (a b : Str) : Bool :=
  a.map Char.toLower = b.map Char.toLower

/-- `bson.IsObjectIdHex`: 24 characters, all hexadecimal digits. -/
def isHexDigit (c : Char) : Bool :=
  ('0' ≤ c ∧ c ≤ '9') ∨ ('a' ≤ c ∧ c ≤ 'f') ∨ ('A' ≤ c ∧ c ≤ 'F')

/-- `bson.IsObjectIdHex id` as used by `LoadStorageEntry`. -/
def isObjectIdHex (s : Str) : Bool :=
  s.length = 24 && s.all isHexDigit

/-- Metadata of one stored object (`MongoStorageEntry`, the fields the
router reads; timestamps are not needed by any claim). -/
structure Entry where
  id : Str
  filename : Str
  contentType : Str
  etagValue : Str
  deriving Repr, DecidableEq

instance : Inhabited Entry := ⟨⟨[], [], [], []⟩⟩

/-- Outcome of the mgo `collection.FindId(id).One(result)` round trip:
a row, `mgo.ErrNotFound`, or any other (connectivity) error. -/
inductive FindResult where
  | ok (e : Entry)
  | errNotFound
  | errOther
  deriving Repr, DecidableEq

/-- The Go triple `(bool, error, Entry)` returned by
`MongoStorage.LoadStorageEntry`; the entry is the zero value when the
lookup did not succeed, as in the source. -/
structure LoadResult where
  success : Bool
  err : Option Unit
  entry : Entry
  deriving Repr, DecidableEq

/-- `MongoStorage.LoadStorageEntry` from `storages/mongostorage.go`:
validity gate `bson.IsObjectIdHex`, then `FindId`; `mgo.ErrNotFound`
becomes `(false, nil, result)`, any other error `err` becomes
`(err == nil, err, result)`, an invalid id becomes `(false, nil, result)`. -/
def LoadStorageEntry (findOne : Str → FindResult) (id : Str) : LoadResult :=
  if isObjectIdHex id then
    match findOne id with
    | .ok e => ⟨true, none, e⟩
    | .errNotFound => ⟨false, none, default⟩
    | .errOther => ⟨false, some (), default⟩
  else ⟨false, none, default⟩

/-- A healthy (connected) backend over a list of metadata rows: `FindId`
returns the first row with the given id, or `mgo.ErrNotFound`. -/
def lookupRow : List (Str × Entry) → Str → Option Entry
  | [], _ => none
  | (k, e) :: rest, id => if k = id then some e else lookupRow rest id

/-- `FindId` over a healthy backend holding `rows`. -/
def dbFind (rows : List (Str × Entry)) (id : Str) : FindResult :=
  match lookupRow rows id with
  | some e => .ok e
  | none => .errNotFound

/-- `fmt.Sprintf("%v; filename=\"%v\"", kind, filename)` — the
`Content-Disposition` value built by the GET handler. -/
def dispositionValue (kind filename : Str) : Str :=
  kind ++ ("; filename=".toList ++ ['"']) ++ filename ++ ['"']

/-- The GET handler's send loop: `buf := make([]byte, BufferSize)` is
allocated ONCE, each iteration reads `n` bytes into its prefix and then
writes the WHOLE buffer (`w.Write(buf)`), so stale suffix bytes of the
previous iteration are re-sent.  Loop exits when a read returns 0. -/
def sendLoopGo (b : Nat) : Nat → List Nat → List Nat → List Nat
  | 0, _, _ => []
  | fuel + 1, buf, data =>
    if data.take b = [] then []
    else
      let newBuf := data.take b ++ buf.drop (data.take b).length
      newBuf ++ sendLoopGo b fuel newBuf (data.drop b)

/-- The send loop on the whole blob.  The recursion is bounded by the
blob length: per iteration the loop consumes at least one byte (it
breaks at once when `b = 0` or the blob is exhausted). -/
def sendLoop (b : Nat) (buf : List Nat) (data : List Nat) : List Nat :=
  sendLoopGo b data.length buf data

/-- What `handleGetRequest` in `router.go` does to one request, as far
as the verified claims observe it.  `body` records only blob bytes
written through the send loop (error pages written by `http.NotFound` /
`http.Error` are plain fixed texts and are not modelled).  `lookupKey`
is `some id` exactly when `Storage.LoadStorageEntry` was called. -/
structure GetResponse where
  hookCalls : Nat
  status : Nat
  contentDisposition : Option Str
  contentTypeHeader : Option Str
  etagHeader : Option Str
  body : List Nat
  readerOpened : Bool
  lookupKey : Option Str
  deriving Repr, DecidableEq

/-- `ShareXHandler.handleGetRequest` from `router.go`:
hook, `strings.LastIndex(id, ".")` with an immediate `http.NotFound`
when no dot is present, suffix stripping, `LoadStorageEntry`, the
`If-None-Match` short circuit to 304, `GetReader`, the whitelist /
`Content-Disposition` decision, `Content-Type` and `ETag` headers (both
set after the `inlinePassed` label, reached by both branches), then the
send loop.  `blobs` models `entry.GetReader()` (by entry id); `none` is
a failing open.  `ifNoneMatch` is `req.Header.Get("If-None-Match")`
(`""` when the header is absent). -/
def handleGetRequest (whitelist : List Str) (bufferSize : Nat) (hook : Bool)
    (findOne : Str → FindResult) (blobs : Str → Option (List Nat))
    (ifNoneMatch : Str) (seg : Str) : GetResponse :=
  let h := if hook then 1 else 0
  match lastDotIndex seg with
  | none => ⟨h, 404, none, none, none, [], false, none⟩
  | some i =>
    let id := seg.take i
    let lr := LoadStorageEntry findOne id
    if lr.err.isSome then
      ⟨h, 500, none, none, none, [], false, some id⟩
    else if ¬ lr.success then
      ⟨h, 404, none, none, none, [], false, some id⟩
    else if ifNoneMatch = lr.entry.etagValue then
      ⟨h, 304, none, none, none, [], false, some id⟩
    else
      match blobs lr.entry.id with
      | none => ⟨h, 500, none, none, none, [], false, some id⟩
      | some blob =>
        let cd :=
          if whitelist.any (fun v => eqFold v lr.entry.contentType) then
            dispositionValue "inline".toList lr.entry.filename
          else
            dispositionValue "attachment".toList lr.entry.filename
        ⟨h, 200, some cd, some lr.entry.contentType, some lr.entry.etagValue,
          sendLoop bufferSize (List.replicate bufferSize 0) blob, true, some id⟩

/-! ## Upload pipeline (`handleUploadRequest2` / `handleUploadRequest`) -/

/-- The upload copy loop of `handleUploadRequest2` in `router.go`:
a fresh zeroed 8192-byte buffer per iteration, `file.Read(buffer)`
fills its first `bytesRead` bytes, the loop breaks when `bytesRead == 0`,
and the writer receives `writer.Write(buffer)` — the WHOLE buffer, so
short reads are zero-padded to the full buffer size `b`. -/
def copyFullBufferGo (b : Nat) : Nat → List Nat → List Nat
  | 0, _ => []
  | fuel + 1, data =>
    if data.take b = [] then []
    else
      (data.take b ++ List.replicate (b - (data.take b).length) 0)
        ++ copyFullBufferGo b fuel (data.drop b)

/-- The copy loop on the whole part content; the recursion is bounded by
the content length (each iteration consumes at least one byte, and the
loop breaks at once on a zero read). -/
def copyFullBuffer (b : Nat) (data : List Nat) : List Nat :=
  copyFullBufferGo b data.length data

/-- The repaired copy loop of the later upload handler in this
repository (`writer.Write(buffer[:bytesRead])`): only the bytes actually
read are forwarded to the sink. -/
def copySlicedGo (b : Nat) : Nat → List Nat → List Nat
  | 0, _ => []
  | fuel + 1, data =>
    if data.take b = [] then []
    else data.take b ++ copySlicedGo b fuel (data.drop b)

/-- The repaired copy loop on the whole part content. -/
def copySliced (b : Nat) (data : List Nat) : List Nat :=
  copySlicedGo b data.length data

/-- The uploaded part: client-supplied filename and content bytes. -/
structure UploadFile where
  filename : Str
  content : List Nat
  deriving Repr, DecidableEq

/-- Success/failure of each external call made by an upload request, and
the identifier the backend assigns on `Save`.  `parseOk` is
`req.ParseMultipartForm(1 << 20)` succeeding (false exactly when the
declared Content-Type is not parseable multipart data); `formFileOk` is
`req.FormFile("file")` succeeding; the rest are the storage calls. -/
structure UploadWorld where
  parseOk : Bool
  formFileOk : Bool
  saveOk : Bool
  writerOk : Bool
  updateOk : Bool
  newId : Str
  deriving Repr, DecidableEq

/-- Observable outcome of one upload request. `status` is the single
status line fixed by the FIRST `WriteHeader`/`http.Error` call.
`urlBody` is the success url written after a 200 header (`none` when
never reached).  `saveCalled`/`entrySaved` record whether
`entry.Save()` was invoked / succeeded (a metadata row was inserted);
`blob` is the byte sequence the writer received (`none` when the writer
was never opened).  `panicked` records the Go runtime panic raised by
slicing `filename[-1:]`. -/
structure UploadResult where
  hookCalls : Nat
  panicked : Bool
  status : Option Nat
  urlBody : Option Str
  saveCalled : Bool
  entrySaved : Bool
  blob : Option (List Nat)
  deriving Repr, DecidableEq

/-- `ShareXHandler.handleUploadRequest2` from `router.go`, step by step:
hook; `ParseMultipartForm` (error → 500, stop); `FormFile` (error → 500,
stop); `file.Read(fileHeader)` into a 512-byte buffer — for the
in-memory multipart readers this errors (`io.EOF`) exactly when the file
is empty, and the handler then writes a 500 error WITHOUT returning and
falls through; `file.Seek(0,0)`; `entry.Save()` (error → 500, stop);
`entry.GetWriter()` (error → 500, stop); the full-buffer copy loop with
the hardcoded 8192-byte buffer; `entry.Update()` (error → 500, stop);
`WriteHeader(200)` (ignored when a status was already written); finally
the url `ProtocolHost + id + filename[strings.LastIndex(filename,"."):]`
— when the filename has no dot the index is `-1` and the slice panics. -/
def handleUploadRequest2 (host : Str) (hook : Bool) (w : UploadWorld)
    (f : UploadFile) : UploadResult :=
  let h := if hook then 1 else 0
  if ¬ w.parseOk then ⟨h, false, some 500, none, false, false, none⟩
  else if ¬ w.formFileOk then ⟨h, false, some 500, none, false, false, none⟩
  else
    let st0 : Option Nat := if f.content.isEmpty then some 500 else none
    if ¬ w.saveOk then ⟨h, false, some (st0.getD 500), none, true, false, none⟩
    else if ¬ w.writerOk then
      ⟨h, false, some (st0.getD 500), none, true, true, none⟩
    else
      let blob := copyFullBuffer 8192 f.content
      if ¬ w.updateOk then
        ⟨h, false, some (st0.getD 500), none, true, true, some blob⟩
      else
        let stFinal := some (st0.getD 200)
        match lastDotIndex f.filename with
        | none => ⟨h, true, stFinal, none, true, true, some blob⟩
        | some i =>
          ⟨h, false, stFinal, some (host ++ w.newId ++ f.filename.drop i),
            true, true, some blob⟩

/-- `ShareXHandler.handleUploadRequest` from `router.go`: it runs the
hook itself and then delegates to `handleUploadRequest2` (which runs the
hook again); the code after `if true { return }` is unreachable and is
not modelled. -/
def handleUploadRequest (host : Str) (hook : Bool) (w : UploadWorld)
    (f : UploadFile) : UploadResult :=
  let r := handleUploadRequest2 host hook w f
  { r with hookCalls := (if hook then 1 else 0) + r.hookCalls }

/-! ## `MongoStorageEntry.Save` (identifier allocation) -/

/-- `collection.FindId(id).Limit(1).Count()` over the metadata rows:
the number of rows carrying the identifier (capped at 1 by `Limit`,
which does not matter for the `count >= 1` test). -/
def countId (rows : List (Str × Entry)) (id : Str) : Nat :=
  (rows.filter (fun p => p.1 = id)).length

/-- The retry loop of `Save`: attempt `k` draws `gen k` as
`bson.NewObjectId()`, checks `count >= 1`, and retries on a collision.
The Go loop is unbounded; `fuel` bounds the recursion, `none` meaning
the loop has not found a fresh identifier within `fuel` attempts. -/
def findFreshId (rows : List (Str × Entry)) (gen : Nat → Str) :
    Nat → Nat → Option Str
  | _, 0 => none
  | k, fuel + 1 =>
    if countId rows (gen k) ≥ 1 then findFreshId rows gen (k + 1) fuel
    else some (gen k)

/-- `MongoStorageEntry.Save`: run the retry loop; on success insert the
metadata row for the fresh identifier (`collection.Insert`).  When the
loop does not terminate within `fuel` attempts no insert happens. -/
def mongoSave (gen : Nat → Str) (fuel : Nat) (rows : List (Str × Entry))
    (e : Entry) : List (Str × Entry) :=
  match findFreshId rows gen 0 fuel with
  | none => rows
  | some id => rows ++ [(id, e)]

/-- At most one metadata row per identifier. -/
def oneRowPerId (rows : List (Str × Entry)) : Prop :=
  ∀ id, countId rows id ≤ 1

/-! ## Concrete fixtures used by witnesses and counterexamples -/

/-- A syntactically valid 24-hex-character ObjectId. -/
def id0 : Str := "aaaaaaaaaaaaaaaaaaaaaaaa".toList

/-- A stored entry under `id0`. -/
def entry0 : Entry :=
  ⟨id0, "a.png".toList, "image/png".toList, "etag1".toList⟩

/-- One metadata row. -/
def rows0 : List (Str × Entry) := [(id0, entry0)]

/-- Blob store holding one byte under `id0`. -/
def blobs0 : Str → Option (List Nat) :=
  fun i => if i = id0 then some [9] else none

/-- An upload world where every external call succeeds. -/
def okWorld : UploadWorld := ⟨true, true, true, true, true, id0⟩

/-- The configured `ProtocolHost` of the README example. -/
def host0 : Str := "https://localhost/".toList

/-- A stored entry with a `.txt` filename under `id0`. -/
def entryTxt : Entry :=
  ⟨id0, "a.txt".toList, "text/plain; charset=utf-8".toList, "etag2".toList⟩

/-- Blob store holding an empty blob under `id0`. -/
def blobsEmpty : Str → Option (List Nat) :=
  fun i => if i = id0 then some [] else none

/-! ## Helper lemmas -/

/-- The lookup key the GET handler would use: `none` when the segment
has no dot, else the prefix before the last dot. -/
def strippedKey (seg : Str) : Option Str :=
  (lastDotIndex seg).map (fun i => seg.take i)

theorem lastDotIndex_eq_none {s : Str} (h : '.' ∉ s) : lastDotIndex s = none := by
  induction s with
  | nil => rfl
  | cons c rest ih =>
    rw [List.mem_cons, not_or] at h
    rw [lastDotIndex, ih h.2, if_neg (fun hc => h.1 hc.symm)]

theorem lastDotIndex_append (a b : Str) (h : '.' ∉ b) :
    lastDotIndex (a ++ '.' :: b) = some a.length := by
  induction a with
  | nil => simp [lastDotIndex, lastDotIndex_eq_none h]
  | cons c a ih => simp [lastDotIndex, ih]

theorem lookupKey_of_dot (whitelist : List Str) (bufferSize : Nat) (hook : Bool)
    (findOne : Str → FindResult) (blobs : Str → Option (List Nat))
    (inm seg : Str) (i : Nat) (h : lastDotIndex seg = some i) :
    (handleGetRequest whitelist bufferSize hook findOne blobs inm seg).lookupKey
      = some (seg.take i) := by
  unfold handleGetRequest
  rw [h]
  dsimp only
  repeat' split
  all_goals rfl

theorem status_of_no_dot (whitelist : List Str) (bufferSize : Nat) (hook : Bool)
    (findOne : Str → FindResult) (blobs : Str → Option (List Nat))
    (inm seg : Str) (h : lastDotIndex seg = none) :
    (handleGetRequest whitelist bufferSize hook findOne blobs inm seg).status = 404
      ∧ (handleGetRequest whitelist bufferSize hook findOne blobs inm seg).lookupKey
        = none := by
  unfold handleGetRequest
  rw [h]
  exact ⟨rfl, rfl⟩

/-- A lookup miss of the healthy backend gives the Go triple
`(false, nil, zeroEntry)`, for valid and invalid identifiers alike. -/
theorem loadMiss (rows : List (Str × Entry)) (id : Str)
    (h : lookupRow rows id = none) :
    LoadStorageEntry (dbFind rows) id = ⟨false, none, default⟩ := by
  unfold LoadStorageEntry dbFind
  rw [h]
  split <;> rfl

theorem hookCalls_upload2 (host : Str) (hook : Bool) (w : UploadWorld)
    (f : UploadFile) :
    (handleUploadRequest2 host hook w f).hookCalls = if hook then 1 else 0 := by
  unfold handleUploadRequest2
  repeat' split
  all_goals rfl

theorem hookCalls_get (whitelist : List Str) (bufferSize : Nat) (hook : Bool)
    (findOne : Str → FindResult) (blobs : Str → Option (List Nat))
    (inm seg : Str) :
    (handleGetRequest whitelist bufferSize hook findOne blobs inm seg).hookCalls
      = if hook then 1 else 0 := by
  cases hld : lastDotIndex seg
  all_goals unfold handleGetRequest
  all_goals rw [hld]
  all_goals dsimp only
  all_goals repeat' split
  all_goals rfl

theorem countId_append (r₁ r₂ : List (Str × Entry)) (id : Str) :
    countId (r₁ ++ r₂) id = countId r₁ id + countId r₂ id := by
  simp [countId, List.filter_append]

theorem countId_singleton (id id' : Str) (e : Entry) :
    countId [(id, e)] id' = if id = id' then 1 else 0 := by
  by_cases h : id = id' <;> simp [countId, h]

theorem findFreshId_fresh (rows : List (Str × Entry)) (gen : Nat → Str) :
    ∀ fuel k id, findFreshId rows gen k fuel = some id → countId rows id = 0 := by
  intro fuel
  induction fuel with
  | zero => intro k id h; simp [findFreshId] at h
  | succ n ih =>
    intro k id h
    unfold findFreshId at h
    split at h
    · exact ih _ _ h
    · rename_i hc
      cases h
      omega

theorem oneRowPerId_save (gen : Nat → Str) (fuel : Nat)
    (rows : List (Str × Entry)) (e : Entry) (h : oneRowPerId rows) :
    oneRowPerId (mongoSave gen fuel rows e) := by
  unfold mongoSave
  split
  · exact h
  · rename_i id hfind
    intro id'
    have hfresh := findFreshId_fresh rows gen fuel 0 id hfind
    rw [countId_append, countId_singleton]
    by_cases hid : id = id'
    · subst hid
      rw [hfresh]
      simp
    · rw [if_neg hid]
      have := h id'
      omega

/-! ## Claims -/

/-- C1: the upload round-trip claim fails on the code.  A successful
upload of the single byte `7` (status 200) persists a blob of 8192
bytes, because the copy loop of `handleUploadRequest2` hands the whole
zero-padded 8192-byte buffer to the writer instead of its filled
prefix; the repaired loop (`copySliced`, `writer.Write(buffer[:bytesRead])`
in the later handler of this repository) preserves the bytes exactly. -/
theorem C1_full_buffer_write_pads_blob :
    (handleUploadRequest2 host0 false okWorld ⟨"a.png".toList, [7]⟩).status
      = some 200 ∧
    ((handleUploadRequest2 host0 false okWorld ⟨"a.png".toList, [7]⟩).blob.getD
      []).length = 8192 ∧
    copySliced 8192 [7] = [7] := by
  refine ⟨rfl, ?_, by decide⟩
  have hb : (handleUploadRequest2 host0 false okWorld
      ⟨"a.png".toList, [7]⟩).blob = some (copyFullBuffer 8192 [7]) := rfl
  have h2 : copyFullBuffer 8192 [7]
      = ([7] ++ List.replicate (8192 - 1) 0) ++ [] := rfl
  rw [hb, Option.getD_some, h2, List.append_nil, List.length_append,
    List.length_replicate]
  decide

/-- C2 counterexample: requesting the bare identifier `id0` (no dot in
the segment) is answered 404 without any storage lookup, while
`id0 ++ ".png"` resolves the stored entry with status 200 — so a bare
identifier does NOT resolve the same entry as the suffixed one,
contradicting the claim. -/
theorem C2_counterexample :
    (handleGetRequest [] 1024 false (dbFind rows0) blobs0 "".toList id0).status
      = 404 ∧
    (handleGetRequest [] 1024 false (dbFind rows0) blobs0 "".toList
      id0).lookupKey = none ∧
    (handleGetRequest [] 1024 false (dbFind rows0) blobs0 "".toList
      (id0 ++ ".png".toList)).status = 200 ∧
    (handleGetRequest [] 1024 false (dbFind rows0) blobs0 "".toList
      (id0 ++ ".png".toList)).lookupKey = some id0 := by
  decide

/-- C2 (amended): the delivery pipeline strips everything from the last
`'.'` onward in the id path segment to obtain the lookup key; when the
segment contains no `'.'` the handler responds 404 Not Found without
consulting storage (it does NOT use the whole segment as the id). -/
theorem C2_amended_strip_policy (whitelist : List Str) (bufferSize : Nat)
    (hook : Bool) (findOne : Str → FindResult)
    (blobs : Str → Option (List Nat)) (inm : Str) :
    (∀ a b, '.' ∉ b →
      (handleGetRequest whitelist bufferSize hook findOne blobs inm
        (a ++ '.' :: b)).lookupKey = some a) ∧
    (∀ s, '.' ∉ s →
      (handleGetRequest whitelist bufferSize hook findOne blobs inm s).status
        = 404 ∧
      (handleGetRequest whitelist bufferSize hook findOne blobs inm
        s).lookupKey = none) := by
  constructor
  · intro a b hb
    have hk := lookupKey_of_dot whitelist bufferSize hook findOne blobs inm
      (a ++ '.' :: b) a.length (lastDotIndex_append a b hb)
    rw [hk, List.take_left]
  · intro s hs
    exact status_of_no_dot whitelist bufferSize hook findOne blobs inm s
      (lastDotIndex_eq_none hs)

/-- C2 witness: the amended policy at concrete inputs. -/
theorem C2_amended_strip_policy_witness :
    (handleGetRequest [] 1024 false (dbFind rows0) blobs0 "".toList
      (id0 ++ '.' :: "png".toList)).lookupKey = some id0 ∧
    (handleGetRequest [] 1024 false (dbFind rows0) blobs0 "".toList
      id0).status = 404 :=
  ⟨(C2_amended_strip_policy [] 1024 false (dbFind rows0) blobs0 "".toList).1
      id0 "png".toList (by decide),
    ((C2_amended_strip_policy [] 1024 false (dbFind rows0) blobs0
      "".toList).2 id0 (by decide)).1⟩

/-- C3 counterexample: a POST whose multipart parse fails is answered
with status 500, not with client error 400 as claimed (no entry is
created, which does match the claim). -/
theorem C3_counterexample :
    (handleUploadRequest host0 false ⟨false, true, true, true, true, id0⟩
      ⟨"a.png".toList, [7]⟩).status = some 500 ∧
    ¬ (handleUploadRequest host0 false ⟨false, true, true, true, true, id0⟩
      ⟨"a.png".toList, [7]⟩).status = some 400 ∧
    (handleUploadRequest host0 false ⟨false, true, true, true, true, id0⟩
      ⟨"a.png".toList, [7]⟩).saveCalled = false := by
  decide

/-- C3 (amended): for every upload request whose declared Content-Type
is not parseable multipart data (`ParseMultipartForm` fails), the
handler responds with server error 500, and no storage entry is created
nor `Save` called. -/
theorem C3_amended_parse_failure_500 (host : Str) (hook : Bool)
    (w : UploadWorld) (f : UploadFile) (h : w.parseOk = false) :
    (handleUploadRequest host hook w f).status = some 500 ∧
    (handleUploadRequest host hook w f).saveCalled = false ∧
    (handleUploadRequest host hook w f).entrySaved = false ∧
    (handleUploadRequest host hook w f).blob = none := by
  simp [handleUploadRequest, handleUploadRequest2, h]

/-- C3 witness: the amended behavior at a concrete request. -/
theorem C3_amended_parse_failure_500_witness :
    (handleUploadRequest host0 false ⟨false, true, true, true, true, id0⟩
      ⟨"a.png".toList, [7]⟩).status = some 500 ∧
    (handleUploadRequest host0 false ⟨false, true, true, true, true, id0⟩
      ⟨"a.png".toList, [7]⟩).saveCalled = false ∧
    (handleUploadRequest host0 false ⟨false, true, true, true, true, id0⟩
      ⟨"a.png".toList, [7]⟩).entrySaved = false ∧
    (handleUploadRequest host0 false ⟨false, true, true, true, true, id0⟩
      ⟨"a.png".toList, [7]⟩).blob = none :=
  C3_amended_parse_failure_500 host0 false ⟨false, true, true, true, true, id0⟩
    ⟨"a.png".toList, [7]⟩ rfl

/-- C4: uploading a file whose name contains no dot does not complete
with a 200 body `protocolHost + id`; the handler computes
`filename[strings.LastIndex(filename, "."):]` which panics on index
`-1`.  A dotted filename does produce the claimed
`protocolHost + id + extension` body. -/
theorem C4_missing_dot_extension_panics :
    (handleUploadRequest2 host0 false okWorld ⟨"README".toList, [7]⟩).panicked
      = true ∧
    (handleUploadRequest2 host0 false okWorld ⟨"README".toList, [7]⟩).urlBody
      = none ∧
    (handleUploadRequest2 host0 false okWorld ⟨"a.png".toList, [7]⟩).status
      = some 200 ∧
    (handleUploadRequest2 host0 false okWorld ⟨"a.png".toList, [7]⟩).urlBody
      = some (host0 ++ id0 ++ ".png".toList) := by
  decide

/-- C5: a zero-byte upload does not succeed with 200: the 512-byte
header read returns `io.EOF` on an empty file, the handler writes a 500
error without returning, and the (first-write-wins) response status is
500 — although the pipeline does continue and persists a durable entry
with an empty blob, and a subsequent GET of the identifier returns 200
with a zero-length body, as claimed. -/
theorem C5_zero_byte_upload_answers_500 :
    (handleUploadRequest2 host0 false okWorld ⟨"a.txt".toList, []⟩).status
      = some 500 ∧
    (handleUploadRequest2 host0 false okWorld ⟨"a.txt".toList, []⟩).entrySaved
      = true ∧
    (handleUploadRequest2 host0 false okWorld ⟨"a.txt".toList, []⟩).blob
      = some [] ∧
    (handleGetRequest [] 1024 false (dbFind [(id0, entryTxt)]) blobsEmpty
      "".toList (id0 ++ ".txt".toList)).status = 200 ∧
    (handleGetRequest [] 1024 false (dbFind [(id0, entryTxt)]) blobsEmpty
      "".toList (id0 ++ ".txt".toList)).body = [] := by
  decide

/-- C6: a GET whose stripped identifier matches no stored row — whether
or not it is a syntactically valid ObjectId — is answered 404 (never
500), and `LoadStorageEntry` reports the miss as a non-error not-found
outcome: success flag `false` with a `nil` error. -/
theorem C6_miss_gives_404_never_500 (rows : List (Str × Entry))
    (whitelist : List Str) (bufferSize : Nat) (hook : Bool)
    (blobs : Str → Option (List Nat)) (inm seg : Str)
    (h : ∀ i, strippedKey seg = some i → lookupRow rows i = none) :
    (handleGetRequest whitelist bufferSize hook (dbFind rows) blobs inm
      seg).status = 404 ∧
    (handleGetRequest whitelist bufferSize hook (dbFind rows) blobs inm
      seg).status ≠ 500 ∧
    (∀ i, strippedKey seg = some i →
      (LoadStorageEntry (dbFind rows) i).success = false ∧
      (LoadStorageEntry (dbFind rows) i).err = none) := by
  have hmain : (handleGetRequest whitelist bufferSize hook (dbFind rows)
      blobs inm seg).status = 404 := by
    cases hld : lastDotIndex seg with
    | none =>
      exact (status_of_no_dot whitelist bufferSize hook (dbFind rows) blobs
        inm seg hld).1
    | some i =>
      have hkey : strippedKey seg = some (seg.take i) := by
        simp [strippedKey, hld]
      have hload := loadMiss rows (seg.take i) (h _ hkey)
      unfold handleGetRequest
      rw [hld]
      dsimp only
      rw [hload]
      rfl
  refine ⟨hmain, by rw [hmain]; decide, ?_⟩
  intro i hkey
  rw [loadMiss rows i (h i hkey)]
  exact ⟨rfl, rfl⟩

/-- C6 witness: a missing (and hex-invalid) identifier at concrete
inputs. -/
theorem C6_miss_gives_404_never_500_witness :
    (handleGetRequest [] 1024 false (dbFind rows0) blobs0 "".toList
      "zz.png".toList).status = 404 :=
  (C6_miss_gives_404_never_500 rows0 [] 1024 false blobs0 "".toList
    "zz.png".toList (by
      intro i hi
      have h2 : strippedKey "zz.png".toList = some "zz".toList := rfl
      rw [h2] at hi
      cases hi
      decide)).1

/-- C7: a GET whose `If-None-Match` header equals the resolved entry's
etag value is answered 304 Not Modified with no body, and the blob
reader is never opened. -/
theorem C7_if_none_match_304 (whitelist : List Str) (bufferSize : Nat)
    (hook : Bool) (findOne : Str → FindResult)
    (blobs : Str → Option (List Nat)) (seg : Str) (i : Nat) (e : Entry)
    (hdot : lastDotIndex seg = some i)
    (hhex : isObjectIdHex (seg.take i) = true)
    (hfind : findOne (seg.take i) = .ok e) :
    (handleGetRequest whitelist bufferSize hook findOne blobs e.etagValue
      seg).status = 304 ∧
    (handleGetRequest whitelist bufferSize hook findOne blobs e.etagValue
      seg).body = [] ∧
    (handleGetRequest whitelist bufferSize hook findOne blobs e.etagValue
      seg).readerOpened = false := by
  have hload : LoadStorageEntry findOne (seg.take i) = ⟨true, none, e⟩ := by
    simp [LoadStorageEntry, hhex, hfind]
  unfold handleGetRequest
  rw [hdot]
  dsimp only
  rw [hload]
  simp

/-- C7 witness: the conditional-GET short circuit at concrete inputs. -/
theorem C7_if_none_match_304_witness :
    (handleGetRequest [] 1024 false (dbFind rows0) blobs0 entry0.etagValue
      (id0 ++ ".png".toList)).status = 304 ∧
    (handleGetRequest [] 1024 false (dbFind rows0) blobs0 entry0.etagValue
      (id0 ++ ".png".toList)).body = [] ∧
    (handleGetRequest [] 1024 false (dbFind rows0) blobs0 entry0.etagValue
      (id0 ++ ".png".toList)).readerOpened = false :=
  C7_if_none_match_304 [] 1024 false (dbFind rows0) blobs0
    (id0 ++ ".png".toList) 24 entry0 (by decide) (by decide) (by decide)

/-- C8: on a delivered entry, a content type case-insensitively equal to
some whitelist member yields `Content-Disposition: inline` with the
entry's filename, otherwise `attachment` with the filename; both
branches set the `Content-Type` and `ETag` headers from the entry. -/
theorem C8_disposition_and_headers (whitelist : List Str) (bufferSize : Nat)
    (hook : Bool) (findOne : Str → FindResult)
    (blobs : Str → Option (List Nat)) (inm seg : Str) (i : Nat) (e : Entry)
    (blob : List Nat) (hdot : lastDotIndex seg = some i)
    (hhex : isObjectIdHex (seg.take i) = true)
    (hfind : findOne (seg.take i) = .ok e) (hinm : inm ≠ e.etagValue)
    (hblob : blobs e.id = some blob) :
    (whitelist.any (fun v => eqFold v e.contentType) = true →
      (handleGetRequest whitelist bufferSize hook findOne blobs inm
        seg).contentDisposition
        = some (dispositionValue "inline".toList e.filename)) ∧
    (whitelist.any (fun v => eqFold v e.contentType) = false →
      (handleGetRequest whitelist bufferSize hook findOne blobs inm
        seg).contentDisposition
        = some (dispositionValue "attachment".toList e.filename)) ∧
    (handleGetRequest whitelist bufferSize hook findOne blobs inm
      seg).contentTypeHeader = some e.contentType ∧
    (handleGetRequest whitelist bufferSize hook findOne blobs inm
      seg).etagHeader = some e.etagValue := by
  have hload : LoadStorageEntry findOne (seg.take i) = ⟨true, none, e⟩ := by
    simp [LoadStorageEntry, hhex, hfind]
  unfold handleGetRequest
  rw [hdot]
  dsimp only
  rw [hload]
  dsimp only
  rw [if_neg hinm, hblob]
  refine ⟨fun hw => ?_, fun hw => ?_, rfl, rfl⟩ <;> simp [hw]

/-- C8 witness: an inline delivery at concrete inputs. -/
theorem C8_disposition_and_headers_witness :
    (["IMAGE/PNG".toList].any (fun v => eqFold v entry0.contentType) = true →
      (handleGetRequest ["IMAGE/PNG".toList] 1024 false (dbFind rows0) blobs0
        "".toList (id0 ++ ".png".toList)).contentDisposition
        = some (dispositionValue "inline".toList entry0.filename)) ∧
    (["IMAGE/PNG".toList].any (fun v => eqFold v entry0.contentType) = false →
      (handleGetRequest ["IMAGE/PNG".toList] 1024 false (dbFind rows0) blobs0
        "".toList (id0 ++ ".png".toList)).contentDisposition
        = some (dispositionValue "attachment".toList entry0.filename)) ∧
    (handleGetRequest ["IMAGE/PNG".toList] 1024 false (dbFind rows0) blobs0
      "".toList (id0 ++ ".png".toList)).contentTypeHeader
      = some entry0.contentType ∧
    (handleGetRequest ["IMAGE/PNG".toList] 1024 false (dbFind rows0) blobs0
      "".toList (id0 ++ ".png".toList)).etagHeader = some entry0.etagValue :=
  C8_disposition_and_headers ["IMAGE/PNG".toList] 1024 false (dbFind rows0)
    blobs0 "".toList (id0 ++ ".png".toList) 24 entry0 [9] (by decide)
    (by decide) (by decide) (by decide) (by decide)

/-- C9: `Save` retries identifier generation until the backend holds no
row with the generated identifier and only then inserts, so a fresh
identifier has zero matching rows at insertion time and every sequence
of saves preserves the at-most-one-row-per-id invariant. -/
theorem C9_fresh_id_and_one_row_per_id (gen : Nat → Str) (fuel : Nat) :
    (∀ rows k id, findFreshId rows gen k fuel = some id →
      countId rows id = 0) ∧
    (∀ (rows : List (Str × Entry)) (es : List Entry), oneRowPerId rows →
      oneRowPerId (es.foldl (mongoSave gen fuel) rows)) := by
  constructor
  · intro rows k id hf
    exact findFreshId_fresh rows gen fuel k id hf
  · intro rows es
    induction es generalizing rows with
    | nil => exact fun h => h
    | cons e es ih => exact fun h => ih _ (oneRowPerId_save gen fuel rows e h)

/-- C9 witness: two consecutive saves with a constant generator keep one
row per identifier. -/
theorem C9_fresh_id_and_one_row_per_id_witness :
    oneRowPerId ([entry0, entryTxt].foldl
      (mongoSave (fun _ => id0) 3) ([] : List (Str × Entry))) :=
  (C9_fresh_id_and_one_row_per_id (fun _ => id0) 3).2 [] [entry0, entryTxt]
    (fun id => by simp [countId])

/-- C10: with a configured pre-request hook, an upload request invokes
the hook exactly twice (once in `handleUploadRequest`, once more in
`handleUploadRequest2` it delegates to), while a GET request invokes it
exactly once. -/
theorem C10_hook_twice_on_upload_once_on_get (host : Str) (w : UploadWorld)
    (f : UploadFile) (whitelist : List Str) (bufferSize : Nat)
    (findOne : Str → FindResult) (blobs : Str → Option (List Nat))
    (inm seg : Str) :
    (handleUploadRequest host true w f).hookCalls = 2 ∧
    (handleUploadRequest2 host true w f).hookCalls = 1 ∧
    (handleGetRequest whitelist bufferSize true findOne blobs inm
      seg).hookCalls = 1 := by
  refine ⟨?_, ?_, ?_⟩
  · simp [handleUploadRequest, hookCalls_upload2]
  · simpa using hookCalls_upload2 host true w f
  · simpa using hookCalls_get whitelist bufferSize true findOne blobs inm seg

end ShareXHandler
